import Mathlib

/-!
Verification development for the Buildathon honeypot service.

Shallow embedding of the conversational fraud-engagement engine:
`scam_detector.py` (ScamDetector), `intelligence.py` (IntelligenceExtractor),
`session_manager.py` (SessionManager), `ai_agent.py` (AIAgent persona state)
and the per-message workflow of `app.py` (honeypot_endpoint).

Messages are modelled as `List Char` (Python `str`), scores as `ℚ`
(the Python float arithmetic in these modules only ever adds multiples of
0.5 and divides by 15 and 100, all exact in the rationals for the values
the theorems touch).  External effects (the Groq chat completion, the
outbound `requests.post`, `random.choice`, wall-clock timestamps) are
passed in as explicit oracle arguments.
-/

namespace Buildathon

/-! ## Character and string primitives (Python `str` / `re` over ASCII) -/

/-- Python `str.lower` restricted to the ASCII range (every string handled by
this repository and by the claims is ASCII). -/
def asciiLower (c : Char) : Char :=
  if 'A' ≤ c ∧ c ≤ 'Z' then Char.ofNat (c.toNat + 32) else c

/-- `message.lower()` on a whole string. -/
def lowerStr (s : List Char) : List Char := s.map asciiLower

/-- Boolean prefix test: the literal `p` matches at the head of `s`. -/
def isPrefixOfB : List Char → List Char → Bool
  | [], _ => true
  | _ :: _, [] => false
  | p :: ps, c :: cs => p == c && isPrefixOfB ps cs

/-- Try a predicate at every start position of `s` (including the empty
suffix), the way `re.search` scans a subject string. -/
def anySuffix (p : List Char → Bool) : List Char → Bool
  | [] => p []
  | c :: cs => p (c :: cs) || anySuffix p cs

/-- Python substring containment `pat in text`. -/
def containsSub (text pat : List Char) : Bool :=
  anySuffix (isPrefixOfB pat) text

/-- Python regex `\d` (ASCII). -/
def isDigitC (c : Char) : Bool := '0' ≤ c && c ≤ '9'

def isAsciiUpperC (c : Char) : Bool := 'A' ≤ c && c ≤ 'Z'

def isAsciiLowerC (c : Char) : Bool := 'a' ≤ c && c ≤ 'z'

/-- Python regex `\w` (ASCII): letters, digits, underscore. -/
def isWordC (c : Char) : Bool :=
  isDigitC c || isAsciiUpperC c || isAsciiLowerC c || c == '_'

/-- Python regex `\s` (ASCII), which is also the default `str.strip` class:
space, tab, newline, carriage return, vertical tab, form feed. -/
def isPyWS (c : Char) : Bool :=
  c == ' ' || c == '\t' || c == '\n' || c == '\r' ||
  c == Char.ofNat 11 || c == Char.ofNat 12

/-- First character exists and is a digit (`\d` anchored at head). -/
def digitsStart : List Char → Bool
  | c :: _ => isDigitC c
  | [] => false

/-- Backtracking optional single character (`X?` before continuation `k`):
try consuming one `p`-character first, then try without. -/
def optThen (p : Char → Bool) (k : List Char → Bool) (s : List Char) : Bool :=
  (match s with
   | c :: cs => p c && k cs
   | [] => false) || k s

/-! ## Exact rational model of Python `round(x, 2)` -/

/-- Floor of a rational as an integer (`Int.fdiv` floors). -/
def qfloor (q : ℚ) : ℤ := Int.fdiv q.num (q.den : ℤ)

/-- Round half to even to an integer, as Python `round` does. -/
def pyRoundZ (q : ℚ) : ℤ :=
  let f := qfloor q
  let r := q - (f : ℚ)
  if r < 1/2 then f
  else if (1 : ℚ)/2 < r then f + 1
  else if f % 2 = 0 then f else f + 1

/-- Python `round(x, 2)`. -/
def pyRound2 (q : ℚ) : ℚ := (pyRoundZ (q * 100) : ℚ) / 100

/-! ## ScamDetector (`scam_detector.py`) -/

/-- `ScamDetector.SCAM_KEYWORDS`, in source (dict-insertion) order.
Weights are the exact rationals of the Python float literals. -/
def SCAM_KEYWORDS : List (List Char × ℚ) :=
  [("urgent".data, 3), ("verify".data, 5/2), ("account blocked".data, 4),
   ("suspended".data, 7/2), ("immediate".data, 3), ("click here".data, 5/2),
   ("confirm".data, 2), ("update".data, 2), ("security".data, 2),
   ("otp".data, 7/2), ("upi".data, 5/2), ("bank".data, 2), ("payment".data, 2),
   ("transfer".data, 5/2), ("prize".data, 3), ("winner".data, 3),
   ("congratulations".data, 5/2), ("lottery".data, 4), ("refund".data, 5/2),
   ("cashback".data, 5/2), ("limited time".data, 3), ("expire".data, 5/2),
   ("last chance".data, 3), ("act now".data, 3), ("kycupdate".data, 4),
   ("block".data, 7/2), ("fraud".data, 3), ("unauthorized".data, 3)]

/-- Matcher for the regex `within \d+ (hours?|minutes?|days?)` anchored at the
start of `s` (search hit only, trailing text irrelevant; `\d+` is greedy and
must be followed by a space and a unit word). -/
def matchWithinAt (s : List Char) : Bool :=
  isPrefixOfB "within ".data s &&
  (let rest := s.drop 7
   decide (1 ≤ (rest.takeWhile isDigitC).length) &&
   (match rest.dropWhile isDigitC with
    | c :: cs =>
        c == ' ' &&
        (isPrefixOfB "hour".data cs || isPrefixOfB "minute".data cs ||
         isPrefixOfB "day".data cs)
    | [] => false))

/-- `ScamDetector.URGENCY_PATTERNS`: true when any of the eight patterns has
a `re.search` hit in the lowercased message (the code adds 2.0 once and
breaks at the first hit; a Bool captures that single contribution). -/
def urgencyHit (ml : List Char) : Bool :=
  anySuffix matchWithinAt ml ||
  containsSub ml "immediately".data ||
  containsSub ml "right now".data ||
  containsSub ml "asap".data ||
  containsSub ml "urgent".data ||
  containsSub ml "today".data ||
  containsSub ml "expire".data ||
  containsSub ml "last chance".data

/-- Matcher for `(verify|confirm|update).*(detail|information)` anchored at the
start of `s`: one of the three trigger words, then any characters other than a
newline (Python `.` does not cross `\n`), then one of the two target words. -/
def scanNoNL : List Char → Bool
  | [] => false
  | c :: cs =>
    isPrefixOfB "detail".data (c :: cs) ||
    isPrefixOfB "information".data (c :: cs) ||
    (!(c == '\n') && scanNoNL cs)

def sensitiveComboAt (s : List Char) : Bool :=
  if isPrefixOfB "verify".data s then scanNoNL (s.drop 6)
  else if isPrefixOfB "confirm".data s then scanNoNL (s.drop 7)
  else if isPrefixOfB "update".data s then scanNoNL (s.drop 6)
  else false

/-- `ScamDetector.SENSITIVE_DATA_REQUESTS`: any of the six patterns has a
`re.search` hit (the code adds 3.0 once and breaks at the first hit). -/
def sensitiveHit (ml : List Char) : Bool :=
  containsSub ml "otp".data || containsSub ml "pin".data ||
  containsSub ml "password".data || containsSub ml "cvv".data ||
  containsSub ml "account number".data || containsSub ml "bank account".data ||
  containsSub ml "upi id".data || containsSub ml "upi pin".data ||
  containsSub ml "card number".data || containsSub ml "debit card".data ||
  containsSub ml "credit card".data ||
  containsSub ml "aadhaar".data || containsSub ml "pan card".data ||
  anySuffix sensitiveComboAt ml

/-- Body character class of the URL regex
`http[s]?://(?:[a-zA-Z]|[0-9]|[$-_@.&+]|[!*\\(\\),]|(?:%hh))+`.
`$-_` is the character range 0x24–0x5F (which already contains the digits,
the uppercase letters, `@ . & + % * ( ) ,` and the backslash); the `%hh`
alternative adds nothing to the class since `%` itself lies in that range. -/
def urlBodyChar (c : Char) : Bool :=
  isAsciiLowerC c || isAsciiUpperC c || isDigitC c ||
  (Char.ofNat 0x24 ≤ c && c ≤ Char.ofNat 0x5F) ||
  c == '!' || c == '*' || c == '\\' || c == '(' || c == ')' || c == ','

/-- Attempt the URL regex at the start of `s`; on success return the full
match and its length (`[s]?` is tried greedily first; the body is the maximal
nonempty run of class characters). -/
def urlMatchAt (s : List Char) : Option (List Char × Nat) :=
  if isPrefixOfB "https://".data s then
    let body := (s.drop 8).takeWhile urlBodyChar
    if 1 ≤ body.length then some ("https://".data ++ body, 8 + body.length)
    else none
  else if isPrefixOfB "http://".data s then
    let body := (s.drop 7).takeWhile urlBodyChar
    if 1 ≤ body.length then some ("http://".data ++ body, 7 + body.length)
    else none
  else none

def urlHit (m : List Char) : Bool := anySuffix (fun s => (urlMatchAt s).isSome) m

/-- Tail of the phone regex: `[6-9]\d{9}` anchored at the start of `s`. -/
def phoneTail (s : List Char) : Bool :=
  match s with
  | c :: cs =>
      ('6' ≤ c && c ≤ '9') && decide ((cs.take 9).length = 9) &&
      (cs.take 9).all isDigitC
  | [] => false

/-- Attempt the regex `(\+91|0)?[6-9]\d{9}` at the start of `s`.  Returns
`(captured group, full match length)`.  The optional group tries `+91`, then
`0`, then the empty alternative, as Python alternation does; when the group
does not participate `re.findall` reports it as `''`, hence the `[]` group. -/
def phoneMatchAt (s : List Char) : Option (List Char × Nat) :=
  if isPrefixOfB "+91".data s && phoneTail (s.drop 3) then some ("+91".data, 13)
  else if isPrefixOfB "0".data s && phoneTail (s.drop 1) then some ("0".data, 11)
  else if phoneTail s then some (([] : List Char), 10)
  else none

def phoneHit (m : List Char) : Bool :=
  anySuffix (fun s => (phoneMatchAt s).isSome) m

/-- The literal before `\s?\d+` in the first money pattern.  The source file
contains the UTF-8 mojibake `U+00E2 U+201A U+00B9` (a double-encoded rupee
sign), so the model matches exactly those three characters. -/
def rupeeLit : List Char := [Char.ofNat 0xE2, Char.ofNat 0x201A, Char.ofNat 0xB9]

def moneyRupeeAt (s : List Char) : Bool :=
  isPrefixOfB rupeeLit s && optThen isPyWS digitsStart (s.drop 3)

/-- `rs\.?\s?\d+` anchored at the start of `s`. -/
def moneyRsAt (s : List Char) : Bool :=
  isPrefixOfB "rs".data s &&
  optThen (· == '.') (optThen isPyWS digitsStart) (s.drop 2)

/-- `pay\s+\d+` anchored at the start of `s`: `\s+` greedily takes the maximal
whitespace run (a shorter run would leave a whitespace character where a digit
is required), so the run must be nonempty and followed by a digit. -/
def moneyPayAt (s : List Char) : Bool :=
  isPrefixOfB "pay".data s &&
  (let r := s.drop 3
   decide (1 ≤ (r.takeWhile isPyWS).length) && digitsStart (r.dropWhile isPyWS))

/-- `\d+\s*rupees` anchored at the start of `s` (both repetitions resolve to
their maximal runs, by the same backtracking argument). -/
def moneyRupeesAt (s : List Char) : Bool :=
  digitsStart s &&
  isPrefixOfB "rupees".data ((s.dropWhile isDigitC).dropWhile isPyWS)

/-- The four money patterns (the code adds 3.0 once and breaks at the first
pattern with a hit). -/
def moneyHit (ml : List Char) : Bool :=
  anySuffix moneyRupeeAt ml || anySuffix moneyRsAt ml ||
  anySuffix moneyPayAt ml || anySuffix moneyRupeesAt ml

/-- Result dictionary of `ScamDetector.detect`. -/
structure DetectResult where
  is_scam : Bool
  confidence : ℚ
  scam_type : List Char
  risk_factors : List (List Char)
  risk_score : ℚ
deriving DecidableEq

/-- ASCII apostrophe, used by the risk-factor f-string. -/
def squote : Char := Char.ofNat 39

/-- The f-string `Scam keyword: ...` with the keyword in single quotes. -/
def keywordFactor (kw : List Char) : List Char :=
  "Scam keyword: ".data ++ [squote] ++ kw ++ [squote]

/-- `ScamDetector._classify_scam_type` (fixed priority cascade over the
lowercased message, then the risk factors). -/
def classify_scam_type (ml : List Char) (risk_factors : List (List Char)) :
    List Char :=
  if containsSub ml "bank".data || containsSub ml "account".data then
    "Bank Account Fraud".data
  else if containsSub ml "upi".data then "UPI Fraud".data
  else if containsSub ml "otp".data || containsSub ml "pin".data then
    "OTP/PIN Theft".data
  else if containsSub ml "prize".data || containsSub ml "winner".data ||
          containsSub ml "lottery".data then "Prize/Lottery Scam".data
  else if containsSub ml "kyc".data || containsSub ml "verify".data then
    "KYC/Verification Scam".data
  else if risk_factors.any (fun rf => containsSub (lowerStr rf) "link".data) then
    "Phishing".data
  else "Generic Fraud".data

/-- `ScamDetector.detect`.  The `conversation_history` parameter of the Python
method is unused by its body and is omitted.  Scoring follows the source
order: keyword table, urgency, sensitive-data, URL, phone, money; the verdict
compares the unrounded confidence with 0.6 and the returned `confidence` and
`risk_score` are rounded to two decimals. -/
def detect (message : List Char) : DetectResult :=
  let ml := lowerStr message
  let kw := SCAM_KEYWORDS.foldl
    (fun acc p =>
      if containsSub ml p.1 then (acc.1 + p.2, acc.2 ++ [keywordFactor p.1])
      else acc)
    ((0 : ℚ), ([] : List (List Char)))
  let st1 := if urgencyHit ml then
      (kw.1 + 2, kw.2 ++ ["Urgency tactic detected".data]) else kw
  let st2 := if sensitiveHit ml then
      (st1.1 + 3, st1.2 ++ ["Requesting sensitive information".data]) else st1
  let st3 := if urlHit message then
      (st2.1 + 5/2, st2.2 ++ ["Contains suspicious link".data]) else st2
  let st4 := if phoneHit message then
      (st3.1 + 3/2, st3.2 ++ ["Contains phone number".data]) else st3
  let st5 := if moneyHit ml then
      (st4.1 + 3, st4.2 ++ ["Money request detected".data]) else st4
  let confidence : ℚ := min (st5.1 / 15) 1
  { is_scam := decide ((6 : ℚ)/10 ≤ confidence)
    confidence := pyRound2 confidence
    scam_type := classify_scam_type ml st5.2
    risk_factors := st5.2
    risk_score := pyRound2 st5.1 }

/-! ## IntelligenceExtractor (`intelligence.py`) -/

/-- One left-to-right pass of `re.findall` for `\b\d{9,18}\b`.
`acc` holds the digit run in progress, reversed; `startOk` records whether
that run began at a word boundary (start of subject or after a non-word
character).  A maximal digit run is reported iff it began at a boundary, its
length lies in 9–18 and the character ending it (if any) is not a word
character.  This is exactly the behaviour of the regex: interior positions of
a digit run never sit at `\b`, and a greedy `\d{9,18}` ending inside a longer
run always has a digit after it, so only whole maximal runs can match. -/
def bankScanGo : List Char → List Char → Bool → List (List Char)
  | [], acc, startOk =>
      if startOk && decide (9 ≤ acc.length) && decide (acc.length ≤ 18) then
        [acc.reverse]
      else []
  | c :: cs, acc, startOk =>
      if isDigitC c then bankScanGo cs (c :: acc) startOk
      else
        let rest := bankScanGo cs [] (!isWordC c)
        if startOk && decide (9 ≤ acc.length) && decide (acc.length ≤ 18) &&
            !isWordC c then
          acc.reverse :: rest
        else rest

/-- `re.findall(r'\b\d{9,18}\b', m)` (the first bank-account pattern). -/
def bankRunScan (m : List Char) : List (List Char) := bankScanGo m [] true

/-- Generic non-overlapping left-to-right scan, the way `re.findall` walks a
subject: at each position attempt a match; on success record its result and
resume after its end, otherwise advance one character.  `fuel` bounds the
recursion; callers pass the subject length, which suffices because every one
of the matchers used here consumes at least one character. -/
def reScan (tryAt : List Char → Option (List Char × Nat)) :
    Nat → List Char → List (List Char)
  | 0, _ => []
  | _, [] => []
  | fuel + 1, c :: cs =>
      match tryAt (c :: cs) with
      | some (r, n) => r :: reScan tryAt fuel (List.drop (n - 1) cs)
      | none => reScan tryAt fuel cs

/-- The IFSC pattern `[A-Z]{4}0[A-Z0-9]{6}` anchored at the start of `s`
(fixed length 11, no capture group, so `findall` collects full matches). -/
def ifscMatchAt (s : List Char) : Option (List Char × Nat) :=
  if decide ((s.take 11).length = 11) && (s.take 4).all isAsciiUpperC &&
      (match s.drop 4 with
       | c :: _ => c == '0'
       | [] => false) &&
      ((s.drop 5).take 6).all (fun c => isAsciiUpperC c || isDigitC c) then
    some (s.take 11, 11)
  else none

/-- Character class `[\w\.-]` of the UPI/email token pattern. -/
def upiClassChar (c : Char) : Bool := isWordC c || c == '.' || c == '-'

/-- The token pattern `[\w\.-]+@[\w\.-]+` anchored at the start of `s`: a
maximal nonempty class run, a literal `@` (not a class character, so the
greedy run stops right before it and backtracking cannot help), and a second
maximal nonempty class run. -/
def upiMatchAt (s : List Char) : Option (List Char × Nat) :=
  let run1 := s.takeWhile upiClassChar
  if 1 ≤ run1.length then
    match s.drop run1.length with
    | c :: rest =>
        if c == '@' then
          let run2 := rest.takeWhile upiClassChar
          if 1 ≤ run2.length then
            some (run1 ++ '@' :: run2, run1.length + 1 + run2.length)
          else none
        else none
    | [] => none
  else none

/-- `re.findall(r'[\w\.-]+@[\w\.-]+', m)`. -/
def upiTokens (m : List Char) : List (List Char) := reScan upiMatchAt m.length m

/-- Names of the organization pattern
`(SBI|HDFC|ICICI|Axis|Paytm|PhonePe|Google Pay|Amazon|Flipkart)\s*(Bank|Pay)?`,
in alternation order (no name is a prefix of another, so at any position at
most one alternative can match). -/
def ORG_NAMES : List (List Char) :=
  ["SBI".data, "HDFC".data, "ICICI".data, "Axis".data, "Paytm".data,
   "PhonePe".data, "Google Pay".data, "Amazon".data, "Flipkart".data]

/-- The organization pattern anchored at the start of `s`, matched with
`re.IGNORECASE`.  `findall` yields `(group1, group2)` tuples and the code
keeps `m[0]`, the brand name as it appears in the subject (original casing);
the greedy `\s*(Bank|Pay)?` tail only extends the span the scan skips. -/
def orgMatchAt (s : List Char) : Option (List Char × Nat) :=
  match ORG_NAMES.find? (fun nm => isPrefixOfB (lowerStr nm) (lowerStr s)) with
  | some nm =>
      let rest := s.drop nm.length
      let ws := (rest.takeWhile isPyWS).length
      let rest2 := rest.drop ws
      let extra :=
        if isPrefixOfB "bank".data (lowerStr rest2) then ws + 4
        else if isPrefixOfB "pay".data (lowerStr rest2) then ws + 3
        else ws
      some (s.take nm.length, nm.length + extra)
  | none => none

/-- The accumulated `self.intelligence` dictionary of
`IntelligenceExtractor`. -/
structure IntelState where
  bankAccounts : List (List Char)
  upiIds : List (List Char)
  phishingLinks : List (List Char)
  phoneNumbers : List (List Char)
  suspiciousKeywords : List (List Char)
  emailAddresses : List (List Char)
  organizationNames : List (List Char)
deriving DecidableEq

/-- `IntelligenceExtractor.__init__`. -/
def initIntel : IntelState := ⟨[], [], [], [], [], [], []⟩

/-- The fixed payment-provider substring allow-list. -/
def UPI_PROVIDERS : List (List Char) :=
  ["paytm".data, "phonepe".data, "gpay".data, "upi".data, "ybl".data,
   "okhdfcbank".data, "oksbi".data]

/-- `any(provider in match.lower() for provider in [...])`. -/
def hasProvider (t : List Char) : Bool :=
  UPI_PROVIDERS.any (fun p => containsSub (lowerStr t) p)

/-- `IntelligenceExtractor.extract`.  Each scan is a pure function of the
message; every category then becomes `list(set(old + new))`, modelled as
`(old ++ new).dedup` (the arbitrary Python set order is represented by one
fixed deduplication order — every claim about the store is at set level).
The phone scan extends `phoneNumbers` with the values `re.findall` returns
for `(\+91|0)?[6-9]\d{9}`, which — the pattern having exactly one capture
group — are the contents of that optional group, not the full matches.
`suspiciousKeywords` receives no extension but is deduplicated like every
other key. -/
def extract (m : List Char) (st : IntelState) : IntelState :=
  let banks := bankRunScan m ++ reScan ifscMatchAt m.length m
  let toks := upiTokens m
  let upis := toks.filter hasProvider
  let emails := toks.filter
    (fun t => !hasProvider t && containsSub t "@".data && containsSub t ".".data)
  let phones := reScan phoneMatchAt m.length m
  let urls := reScan urlMatchAt m.length m
  let orgs := reScan orgMatchAt m.length m
  { bankAccounts := (st.bankAccounts ++ banks).dedup
    upiIds := (st.upiIds ++ upis).dedup
    phishingLinks := (st.phishingLinks ++ urls).dedup
    phoneNumbers := (st.phoneNumbers ++ phones).dedup
    suspiciousKeywords := st.suspiciousKeywords.dedup
    emailAddresses := (st.emailAddresses ++ emails).dedup
    organizationNames := (st.organizationNames ++ orgs).dedup }

/-! ## SessionManager (`session_manager.py`) -/

/-- One entry of a session `conversation` list. -/
structure Msg where
  sender : List Char
  text : List Char
  timestamp : List Char
deriving DecidableEq

/-- One session dictionary. -/
structure Session where
  session_id : List Char
  started_at : List Char
  message_count : Nat
  scam_detected : Bool
  scam_info : Option DetectResult
  intelligence : IntelState
  conversation : List Msg
  agent_persona : Option (List Char)
  callback_sent : Bool
deriving DecidableEq

/-- The fresh session dict built by `get_or_create_session` (`scam_info`
starts as the empty dict, modelled `none`; `started_at` is the wall-clock
string, supplied by the caller as an oracle). -/
def newSession (sid now : List Char) : Session :=
  { session_id := sid, started_at := now, message_count := 0,
    scam_detected := false, scam_info := none, intelligence := initIntel,
    conversation := [], agent_persona := none, callback_sent := false }

/-- The `self.sessions` dict, as an insertion-ordered association list. -/
def lookupSession : List (List Char × Session) → List Char → Option Session
  | [], _ => none
  | (k, v) :: rest, sid => if k == sid then some v else lookupSession rest sid

def storeSession :
    List (List Char × Session) → List Char → Session →
    List (List Char × Session)
  | [], sid, s => [(sid, s)]
  | (k, v) :: rest, sid, s =>
      if k == sid then (k, s) :: rest else (k, v) :: storeSession rest sid s

/-- `SessionManager.get_or_create_session`. -/
def get_or_create_session (sessions : List (List Char × Session))
    (sid now : List Char) : Session × List (List Char × Session) :=
  match lookupSession sessions sid with
  | some s => (s, sessions)
  | none => (newSession sid now, storeSession sessions sid (newSession sid now))

/-- The body of `SessionManager.add_message` after the lookup: append the
message and bump the counter. -/
def add_message (s : Session) (sender text timestamp : List Char) : Session :=
  { s with
    conversation := s.conversation ++ [⟨sender, text, timestamp⟩],
    message_count := s.message_count + 1 }

/-- `SessionManager.should_end_conversation` (`sess = none` models an unknown
session id, for which the method returns False).  `conversation[-3:]` is the
last three messages; the scammer messages among them are compared at their
last two positions. -/
def should_end_conversation (sess : Option Session) (max_messages : Nat) :
    Bool :=
  match sess with
  | none => false
  | some s =>
    if max_messages ≤ s.message_count then true
    else if 10 < s.message_count then
      let last_messages := s.conversation.drop (s.conversation.length - 3)
      let scammer_messages := last_messages.filterMap
        (fun m => if m.sender == "scammer".data then some m.text else none)
      match scammer_messages.reverse with
      | a :: b :: _ => a == b
      | _ => false
    else false

/-- `SessionManager.send_final_callback`.  The outbound `requests.post` is an
oracle: `some code` means the call returned an HTTP response with status
`code`, `none` means it raised (timeout, connection error).  The payload
assembly on lines 71–85 is a pure computation handed to the post and mutates
no session state, so it is elided; no claim mentions its content.  Note the
source sets `callback_sent` only AFTER `requests.post` returns: when the call
raises, the except branch returns False without touching the flag. -/
def send_final_callback (sess : Option Session) (min_messages : Nat)
    (post : Option Nat) : Option Session × Bool :=
  match sess with
  | none => (none, false)
  | some s =>
    if s.callback_sent then (some s, false)
    else if s.message_count < min_messages then (some s, false)
    else
      match post with
      | some code => (some { s with callback_sent := true }, code == 200)
      | none => (some s, false)

/-- The guard under which `send_final_callback` reaches the `requests.post`
call on line 88, i.e. performs a remote dispatch attempt. -/
def attemptsPost (sess : Option Session) (min_messages : Nat) : Bool :=
  match sess with
  | none => false
  | some s => !s.callback_sent && decide (min_messages ≤ s.message_count)

/-! ## AIAgent persona state (`ai_agent.py`) -/

/-- Keys of `AIAgent.PERSONAS` in dict-insertion order (the candidate list of
`random.choice(list(self.PERSONAS.keys()))`). -/
def PERSONA_KEYS : List (List Char) :=
  ["elderly".data, "eager".data, "skeptical".data, "technical".data]

/-- Python truthiness of `self.current_persona` in
`if not self.current_persona` (None and the empty string are falsy; the
field only ever holds None or a persona key). -/
def personaFalsy : Option (List Char) → Bool
  | none => true
  | some s => s.isEmpty

/-- `AIAgent.select_persona`.  `current` is `self.current_persona`; `pick`
models `random.choice` (applied to the candidate list).  Returns the value
the method returns together with the new `self.current_persona`. -/
def select_persona (current : Option (List Char)) (scam_type : List Char)
    (pick : List (List Char) → List Char) : List Char × Option (List Char) :=
  if personaFalsy current then
    let p :=
      if containsSub scam_type "KYC".data || containsSub scam_type "Bank".data
      then pick ["elderly".data, "skeptical".data]
      else if containsSub scam_type "Prize".data ||
              containsSub scam_type "Lottery".data then "eager".data
      else pick PERSONA_KEYS
    (p, some p)
  else (current.getD [], current)

/-! ## Per-message workflow (`app.py`, honeypot_endpoint) -/

/-- The process-global mutable state of `app.py`: the single shared
`AIAgent` instance (its `current_persona`) and the single shared
`SessionManager` (its `sessions` dict). -/
structure AppState where
  agentPersona : Option (List Char)
  sessions : List (List Char × Session)
deriving DecidableEq

/-- State at process start (`AIAgent.__init__` sets `current_persona = None`,
`SessionManager.__init__` starts with an empty dict). -/
def initialAppState : AppState := ⟨none, []⟩

/-- One parsed inbound `HoneypotRequest`. -/
structure Inbound where
  sessionId : List Char
  sender : List Char
  text : List Char
  timestamp : List Char

/-- Per-request external effects: the wall-clock string (used for
`started_at` and the reply timestamp), the `random.choice` source, the
engagement reply text (the sanitized Groq completion, or the random fallback
when the API raises — either way a plain string appended to the log), and
the callback `requests.post` outcome. -/
structure Oracle where
  now : List Char
  pick : List (List Char) → List Char
  replyText : List Char
  post : Option Nat

/-- app.py lines 138–142: run detection only while the session is
undetected, and freeze the first positive verdict. -/
def updateDetection (sess : Session) (text : List Char) : Session :=
  if !sess.scam_detected then
    let dr := detect text
    if dr.is_scam then { sess with scam_detected := true, scam_info := some dr }
    else sess
  else sess

/-- `scam_info.get('scam_type', 'Generic')` in `AIAgent.generate_response`. -/
def sessScamType (sess : Session) : List Char :=
  match sess.scam_info with
  | some dr => dr.scam_type
  | none => "Generic".data

/-- app.py lines 167–168: after the reply is logged, run the termination
check and, when it fires, the final callback
(`Config.MAX_MESSAGES = 25`, `Config.MIN_MESSAGES_FOR_INTEL = 1`). -/
def maybeCallback (sessions : List (List Char × Session)) (sid : List Char)
    (post : Option Nat) : List (List Char × Session) :=
  if should_end_conversation (lookupSession sessions sid) 25 then
    match send_final_callback (lookupSession sessions sid) 1 post with
    | (some s, _) => storeSession sessions sid s
    | (none, _) => sessions
  else sessions

/-- The session/agent state transition of one POST handled by
`honeypot_endpoint` (app.py lines 117–170): get or create the session,
append the inbound message, run detection while undetected and freeze the
first positive verdict, extract intelligence, and — when a scam is detected
— pick the persona on the process-global agent (`generate_response` touches
no modelled state beyond `select_persona`; the prompt build and the
completion call only produce the reply string, which the oracle supplies).
Then append the reply and run the termination check, dispatching the final
callback when it fires.  Returns the new state and the persona used for
this reply (`none` when no scam has been detected). -/
def processMessage (st : AppState) (inp : Inbound) (o : Oracle) :
    AppState × Option (List Char) :=
  let pair := get_or_create_session st.sessions inp.sessionId o.now
  let sess2 := updateDetection (add_message pair.1 inp.sender inp.text inp.timestamp) inp.text
  let sess3 := { sess2 with intelligence := extract inp.text sess2.intelligence }
  let selected :=
    if sess3.scam_detected then
      let pc := select_persona st.agentPersona (sessScamType sess3) o.pick
      (some pc.1, pc.2)
    else ((none : Option (List Char)), st.agentPersona)
  let reply :=
    if sess3.scam_detected then o.replyText
    else "I".data ++ [squote] ++ "m not sure I understand. Can you explain more?".data
  let sess4 := add_message sess3 "user".data reply o.now
  let sessions2 := maybeCallback (storeSession pair.2 inp.sessionId sess4) inp.sessionId o.post
  ({ agentPersona := selected.2, sessions := sessions2 }, selected.1)

/-- Run a list of requests from a state (left fold of `processMessage`). -/
def runApp (st : AppState) : List (Inbound × Oracle) → AppState
  | [] => st
  | (inp, o) :: rest => runApp (processMessage st inp o).1 rest

/-! ## Definition following the words of the spec (for claim C2 only) -/

/-- Spec-worded termination condition, transcribed from §4.3 and claim C2:
end iff the message count reached the cap, OR more than 10 messages were
exchanged AND the two most recent scammer messages OF THE WHOLE SESSION are
identical.  (The source inspects only the last three conversation entries;
this definition exists to be compared against `should_end_conversation`.) -/
def spec_should_end (s : Session) (maxMessages : Nat) : Bool :=
  decide (maxMessages ≤ s.message_count) ||
  (decide (10 < s.message_count) &&
   (match (s.conversation.filterMap
        (fun m => if m.sender == "scammer".data then some m.text else none)).reverse with
    | a :: b :: _ => a == b
    | _ => false))

/-! ## Concrete inputs used by witnesses and counterexamples -/

/-- The scenario message of §8 of the spec (claims C3, C4, C10). -/
def scamMsg : List Char :=
  "Your account will be blocked! Verify immediately by sending OTP to 9876543210".data

/-- A session past the intel floor with no callback sent yet (claim C1). -/
def c1session : Session :=
  { newSession "sess-1".data "2026-01-01T00:00:00".data with message_count := 6 }

/-- A session with 11 messages whose only scammer messages — its first two
entries — are identical, while its last three entries are operator
messages (claim C2 counterexample). -/
def c2session : Session :=
  { newSession "sess-2".data "2026-01-01T00:00:00".data with
    message_count := 11,
    conversation :=
      [⟨"scammer".data, "A".data, "t1".data⟩,
       ⟨"scammer".data, "A".data, "t2".data⟩] ++
      List.replicate 9 ⟨"user".data, "ok".data, "t".data⟩ }

/-- The §8 scenario session: 11 consecutive scammer messages with messages
10 and 11 textually identical (claim C2 witness). -/
def c2scenario : Session :=
  { newSession "sess-2b".data "2026-01-01T00:00:00".data with
    message_count := 11,
    conversation :=
      List.replicate 9 ⟨"scammer".data, "earlier".data, "t".data⟩ ++
      [⟨"scammer".data, "Hello".data, "t10".data⟩,
       ⟨"scammer".data, "Hello".data, "t11".data⟩] }

/-- All six signal checks of `ScamDetector.detect` come up empty on `m`
(no keyword, no urgency pattern, no sensitive-data pattern, no URL, no
phone shape, no money pattern). -/
def noSignalsB (m : List Char) : Bool :=
  SCAM_KEYWORDS.all (fun p => !containsSub (lowerStr m) p.1) &&
  !urgencyHit (lowerStr m) && !sensitiveHit (lowerStr m) &&
  !urlHit m && !phoneHit m && !moneyHit (lowerStr m)

/-- Every session stored in the registry still has `agent_persona = None`
(claim C9: no code path ever writes that per-session field). -/
def sessionsPersonaNone (l : List (List Char × Session)) : Prop :=
  ∀ sid s, lookupSession l sid = some s → s.agent_persona = none

/-- A process state whose shared agent already holds a persona (claim C9
witness). -/
def c9exSt : AppState := ⟨some "elderly".data, []⟩

/-- A concrete inbound prize-scam message on a fresh session id (claim C9
witness). -/
def c9exInp : Inbound :=
  ⟨"s1".data, "scammer".data, "You won lottery prize! urgent".data,
   "1700000000".data⟩

/-- Concrete per-request effects (claim C9 witness). -/
def c9exOrc : Oracle :=
  ⟨"2026-01-01T00:00:00".data, fun _ => "technical".data,
   "Oh wonderful! What do I do next?".data, some 200⟩

set_option maxRecDepth 100000

/-! ## Helper lemmas -/

/-- Once a nonempty persona is stored, `select_persona` returns it unchanged
and leaves the assignment alone. -/
theorem select_persona_assigned (p : List Char) (hp : p ≠ []) (cat : List Char)
    (pick : List (List Char) → List Char) :
    select_persona (some p) cat pick = (p, some p) := by
  cases p with
  | nil => exact absurd rfl hp
  | cons c cs => simp [select_persona, personaFalsy]

/-! ## Claim C8 -/

/-- C8: persona assignment is assign-once and idempotent: with no persona
assigned, scam category "Prize/Lottery Scam" always yields the eager
persona (for every randomness source); with a persona already assigned,
`select_persona` returns the existing assignment unchanged for every scam
category, leaving the stored assignment stable. -/
theorem c8_persona_assignment (pick : List (List Char) → List Char)
    (p cat : List Char) (hp : p ≠ []) :
    (select_persona none "Prize/Lottery Scam".data pick).1 = "eager".data ∧
    (select_persona none "Prize/Lottery Scam".data pick).2 = some "eager".data ∧
    select_persona (some p) cat pick = (p, some p) := by
  refine ⟨?_, ?_, select_persona_assigned p hp cat pick⟩ <;>
    simp [select_persona, personaFalsy,
      show containsSub "Prize/Lottery Scam".data "KYC".data = false from by decide,
      show containsSub "Prize/Lottery Scam".data "Bank".data = false from by decide,
      show containsSub "Prize/Lottery Scam".data "Prize".data = true from by decide]

/-- Witness for C8 at a concrete randomness source, persona and category. -/
theorem c8_persona_assignment_witness :
    (select_persona none "Prize/Lottery Scam".data (fun _ => "technical".data)).1
      = "eager".data ∧
    select_persona (some "elderly".data) "UPI Fraud".data (fun _ => "technical".data)
      = ("elderly".data, some "elderly".data) := by
  have h := c8_persona_assignment (fun _ => "technical".data) "elderly".data
    "UPI Fraud".data (by decide)
  exact ⟨h.1, h.2.2⟩

/-! ## Claim C1 -/

/-- C1 counterexample: when the dispatch attempt raises (post oracle `none`),
`callback_sent` is NOT set — the session is returned unchanged — and a
second invocation reaches `requests.post` again and is not a no-op returning
false (here it returns true).  So the flag is not set "on the dispatch
attempt regardless of acknowledgement" and the remote call is not performed
at most once per session. -/
theorem c1_callback_counterexample :
    attemptsPost (some c1session) 5 = true ∧
    send_final_callback (some c1session) 5 none = (some c1session, false) ∧
    attemptsPost (send_final_callback (some c1session) 5 none).1 5 = true ∧
    (send_final_callback (send_final_callback (some c1session) 5 none).1 5
        (some 200)).2 = true := by
  decide

/-- C1 (amended): `callback_sent` becomes true when the dispatch attempt
returns an HTTP response — whatever its status code — and from then on every
further `send_final_callback` is a no-op returning false that never reaches
`requests.post`; but when the attempt raises, the flag stays false and a
later invocation attempts the remote call again. -/
theorem c1_callback_amended (s : Session) (minM code : Nat)
    (hflag : s.callback_sent = false) (hmin : minM ≤ s.message_count) :
    send_final_callback (some s) minM (some code)
      = (some { s with callback_sent := true }, code == 200) ∧
    (∀ post2, send_final_callback (some { s with callback_sent := true }) minM post2
      = (some { s with callback_sent := true }, false)) ∧
    attemptsPost (some { s with callback_sent := true }) minM = false ∧
    send_final_callback (some s) minM none = (some s, false) ∧
    attemptsPost (some s) minM = true := by
  have hnot : ¬ s.message_count < minM := Nat.not_lt.mpr hmin
  refine ⟨?_, ?_, ?_, ?_, ?_⟩ <;>
    simp [send_final_callback, attemptsPost, hflag, hnot, hmin]

/-- Witness for C1 (amended) at a concrete session, floor and status code. -/
theorem c1_callback_witness :
    c1session.callback_sent = false ∧ 5 ≤ c1session.message_count ∧
    send_final_callback (some c1session) 5 (some 500)
      = (some { c1session with callback_sent := true }, (500 == 200)) ∧
    send_final_callback (some { c1session with callback_sent := true }) 5 (some 200)
      = (some { c1session with callback_sent := true }, false) := by
  have h := c1_callback_amended c1session 5 500 rfl (by decide)
  exact ⟨rfl, by decide, h.1, h.2.1 (some 200)⟩

/-! ## Claim C4 -/

/-- C4 counterexample: on the scenario message the raw score is 19.0, not
15.5 — the keyword "otp" (weight 3.5) also matches and the claimed sum
omits it. -/
theorem c4_classifier_counterexample :
    (detect scamMsg).risk_score = 19 ∧ (detect scamMsg).risk_score ≠ 155/10 := by
  with_unfolding_all decide

/-- C4 (amended): on the scenario message the classifier accumulates
verify (2.5) + immediate (3.0) + otp (3.5) + block (3.5) + urgency (2.0) +
sensitive-data (3.0) + phone (1.5) = 19.0; the confidence is
min(19/15, 1.0) = 1.0, the verdict is scam, and the category cascade yields
"Bank Account Fraud" because the bank/account rule precedes the OTP/PIN
rule. -/
theorem c4_classifier_amended :
    (detect scamMsg).risk_score = 19 ∧
    min ((19 : ℚ)/15) 1 = 1 ∧
    (detect scamMsg).confidence = 1 ∧
    (detect scamMsg).is_scam = true ∧
    (detect scamMsg).scam_type = "Bank Account Fraud".data ∧
    (detect scamMsg).risk_factors =
      [keywordFactor "verify".data, keywordFactor "immediate".data,
       keywordFactor "otp".data, keywordFactor "block".data,
       "Urgency tactic detected".data, "Requesting sensitive information".data,
       "Contains phone number".data] := by
  with_unfolding_all decide

/-! ## Claim C3 -/

/-- C3: on the scenario message the extractor does NOT record the phone
number 9876543210 in `phoneNumbers` — in any form.  The phone pattern
`(\+91|0)?[6-9]\d{9}` has exactly one capture group, so `re.findall`
returns the group contents (here the non-participating prefix, the empty
string) instead of the matched number: `phoneNumbers` ends up holding
exactly `[""]`.  The number itself lands only in `bankAccounts` via the
9–18-digit scan. -/
theorem c3_phone_extraction_bug :
    (extract scamMsg initIntel).phoneNumbers = [[]] ∧
    "9876543210".data ∉ (extract scamMsg initIntel).phoneNumbers ∧
    "09876543210".data ∉ (extract scamMsg initIntel).phoneNumbers ∧
    "+919876543210".data ∉ (extract scamMsg initIntel).phoneNumbers ∧
    "9876543210".data ∈ (extract scamMsg initIntel).bankAccounts := by
  decide

/-! ## Claim C2 -/

/-- C2 counterexample: a session with more than 10 messages whose two most
recent scammer messages are identical, yet the code returns false — the
identical scammer messages sit outside the three-entry window the source
inspects (`conversation[-3:]` here holds only operator messages).  The
spec-worded condition (`spec_should_end`) and the code disagree. -/
theorem c2_termination_counterexample :
    spec_should_end c2session 25 = true ∧
    should_end_conversation (some c2session) 25 = false := by
  decide

/-- C2 (amended): `should_end_conversation` returns true iff the message
count reached the cap, OR more than 10 messages were exchanged AND, among
the scammer messages WITHIN THE LAST THREE conversation entries, there are
at least two and the last two are textually identical.  (The original claim
quantified over the two most recent scammer messages of the whole session;
the code only looks at the last three entries.) -/
theorem c2_termination_amended (s : Session) (maxM : Nat) :
    should_end_conversation (some s) maxM = true ↔
      (maxM ≤ s.message_count ∨
       (10 < s.message_count ∧
        ∃ a b t,
          ((s.conversation.drop (s.conversation.length - 3)).filterMap
              (fun m => if m.sender == "scammer".data then some m.text else none)).reverse
            = a :: b :: t ∧ a = b)) := by
  simp only [should_end_conversation]
  by_cases h1 : maxM ≤ s.message_count
  · simp [h1]
  · simp only [if_neg h1]
    by_cases h2 : 10 < s.message_count
    · simp only [if_pos h2, h1, false_or]
      cases hrev : ((s.conversation.drop (s.conversation.length - 3)).filterMap
          (fun m => if m.sender == "scammer".data then some m.text else none)).reverse with
      | nil => simp [hrev, h2]
      | cons a rest =>
        cases rest with
        | nil => simp [hrev, h2]
        | cons b t =>
          simp only [hrev, h2, true_and, beq_iff_eq]
          constructor
          · intro hab
            exact ⟨a, b, t, rfl, hab⟩
          · rintro ⟨a2, b2, t2, heq, hab⟩
            injection heq with e1 e2
            injection e2 with e2 e3
            subst e1; subst e2; subst hab
            exact rfl
    · simp [if_neg h2, h1, h2]

/-- Witness for C2 (amended), the §8 scenario: 11 consecutive scammer
messages with messages 10 and 11 identical terminate the conversation even
though the count is below the cap. -/
theorem c2_termination_witness :
    c2scenario.message_count < 25 ∧
    should_end_conversation (some c2scenario) 25 = true := by
  refine ⟨by decide, ?_⟩
  exact (c2_termination_amended c2scenario 25).mpr
    (Or.inr ⟨by decide, "Hello".data, "Hello".data, ["earlier".data],
      by decide, rfl⟩)

/-! ## Claim C5 -/

/-- C5: extraction is idempotent per unique value — running `extract` on the
same message twice leaves every category with exactly the set of values one
run produces — and values already stored are never removed by a later
extraction (set-level monotonicity), for every category. -/
theorem c5_extract_idempotent (m : List Char) (st : IntelState) (v : List Char) :
    (v ∈ (extract m (extract m st)).bankAccounts ↔ v ∈ (extract m st).bankAccounts) ∧
    (v ∈ (extract m (extract m st)).upiIds ↔ v ∈ (extract m st).upiIds) ∧
    (v ∈ (extract m (extract m st)).phishingLinks ↔ v ∈ (extract m st).phishingLinks) ∧
    (v ∈ (extract m (extract m st)).phoneNumbers ↔ v ∈ (extract m st).phoneNumbers) ∧
    (v ∈ (extract m (extract m st)).suspiciousKeywords ↔ v ∈ (extract m st).suspiciousKeywords) ∧
    (v ∈ (extract m (extract m st)).emailAddresses ↔ v ∈ (extract m st).emailAddresses) ∧
    (v ∈ (extract m (extract m st)).organizationNames ↔ v ∈ (extract m st).organizationNames) ∧
    (v ∈ st.bankAccounts → v ∈ (extract m st).bankAccounts) ∧
    (v ∈ st.upiIds → v ∈ (extract m st).upiIds) ∧
    (v ∈ st.phishingLinks → v ∈ (extract m st).phishingLinks) ∧
    (v ∈ st.phoneNumbers → v ∈ (extract m st).phoneNumbers) ∧
    (v ∈ st.suspiciousKeywords → v ∈ (extract m st).suspiciousKeywords) ∧
    (v ∈ st.emailAddresses → v ∈ (extract m st).emailAddresses) ∧
    (v ∈ st.organizationNames → v ∈ (extract m st).organizationNames) := by
  simp [extract, List.mem_dedup, List.mem_append]
  tauto

/-! ## Claim C6 -/

/-- One `extract` call preserves the branch discipline of the token loop:
`upiIds` only ever receives tokens containing a provider marker, and
`emailAddresses` only tokens without one. -/
theorem extract_upi_email_invariant (m : List Char) (st : IntelState)
    (h1 : ∀ v ∈ st.upiIds, hasProvider v = true)
    (h2 : ∀ v ∈ st.emailAddresses, hasProvider v = false) :
    (∀ v ∈ (extract m st).upiIds, hasProvider v = true) ∧
    (∀ v ∈ (extract m st).emailAddresses, hasProvider v = false) := by
  constructor
  · intro v hv
    simp [extract, List.mem_dedup, List.mem_append, List.mem_filter] at hv
    rcases hv with hv | hv
    · exact h1 v hv
    · exact hv.2
  · intro v hv
    simp [extract, List.mem_dedup, List.mem_append, List.mem_filter] at hv
    rcases hv with hv | hv
    · exact h2 v hv
    · exact hv.2.1.1

/-- The branch discipline holds across any run of extractions. -/
theorem foldl_extract_invariant (ms : List (List Char)) (st : IntelState)
    (h1 : ∀ v ∈ st.upiIds, hasProvider v = true)
    (h2 : ∀ v ∈ st.emailAddresses, hasProvider v = false) :
    (∀ v ∈ (ms.foldl (fun acc m2 => extract m2 acc) st).upiIds, hasProvider v = true) ∧
    (∀ v ∈ (ms.foldl (fun acc m2 => extract m2 acc) st).emailAddresses, hasProvider v = false) := by
  induction ms generalizing st with
  | nil => exact ⟨h1, h2⟩
  | cons m rest ih =>
    have h := extract_upi_email_invariant m st h1 h2
    exact ih (extract m st) h.1 h.2

/-- C6: after any sequence of extractions from a fresh extractor, payment
handles and email addresses are mutually exclusive: every stored payment
handle contains a provider marker, every stored email address does not, and
no value sits in both categories. -/
theorem c6_upi_email_exclusive (ms : List (List Char)) (v : List Char) :
    (∀ w ∈ (ms.foldl (fun acc m2 => extract m2 acc) initIntel).upiIds,
      hasProvider w = true) ∧
    (∀ w ∈ (ms.foldl (fun acc m2 => extract m2 acc) initIntel).emailAddresses,
      hasProvider w = false) ∧
    (v ∈ (ms.foldl (fun acc m2 => extract m2 acc) initIntel).upiIds →
      v ∉ (ms.foldl (fun acc m2 => extract m2 acc) initIntel).emailAddresses) := by
  have h := foldl_extract_invariant ms initIntel (by simp [initIntel])
    (by simp [initIntel])
  refine ⟨h.1, h.2, ?_⟩
  intro hu he
  have := h.1 v hu
  have := h.2 v he
  simp_all

/-! ## Claim C7 -/

/-- When no keyword matches, the scoring fold leaves its accumulator
untouched. -/
theorem foldl_keywords_no_hit (ml : List Char) (l : List (List Char × ℚ))
    (h : ∀ p ∈ l, containsSub ml p.1 = false) (acc : ℚ × List (List Char)) :
    l.foldl (fun acc p =>
      if containsSub ml p.1 then (acc.1 + p.2, acc.2 ++ [keywordFactor p.1])
      else acc) acc = acc := by
  induction l generalizing acc with
  | nil => rfl
  | cons p ps ih =>
    rw [List.foldl_cons, if_neg (by simp [h p (List.mem_cons_self p ps)])]
    exact ih (fun q hq => h q (List.mem_cons_of_mem p hq)) acc

/-- A message with no signal in any of the six detection categories scores
zero: no risk factors, confidence 0, not a scam; the category is whatever
the cascade derives from the message text. -/
theorem detect_no_signals (m : List Char)
    (hkw : ∀ p ∈ SCAM_KEYWORDS, containsSub (lowerStr m) p.1 = false)
    (hu : urgencyHit (lowerStr m) = false) (hs : sensitiveHit (lowerStr m) = false)
    (hl : urlHit m = false) (hp : phoneHit m = false)
    (hm : moneyHit (lowerStr m) = false) :
    detect m = { is_scam := false, confidence := 0,
                 scam_type := classify_scam_type (lowerStr m) [],
                 risk_factors := [], risk_score := 0 } := by
  have e2 : pyRound2 (min ((0:ℚ)/15) 1) = 0 := by with_unfolding_all decide
  have e3 : decide ((6:ℚ)/10 ≤ min ((0:ℚ)/15) 1) = false := by
    with_unfolding_all decide
  have e4 : pyRound2 (0:ℚ) = 0 := by with_unfolding_all decide
  simp only [detect]
  rw [foldl_keywords_no_hit (lowerStr m) SCAM_KEYWORDS hkw]
  simp [hu, hs, hl, hp, hm, e2, e3, e4]

/-- Lowercasing fixes whitespace characters. -/
theorem asciiLower_ws (c : Char) (h : isPyWS c = true) : asciiLower c = c := by
  have h2 : c = ' ' ∨ c = '\t' ∨ c = '\n' ∨ c = '\r' ∨
      c = Char.ofNat 11 ∨ c = Char.ofNat 12 := by
    simpa [isPyWS, or_assoc] using h
  rcases h2 with rfl | rfl | rfl | rfl | rfl | rfl <;> decide

/-- A whitespace-only message stays whitespace-only after lowercasing. -/
theorem lowerStr_ws (m : List Char) (h : ∀ c ∈ m, isPyWS c = true) :
    ∀ c ∈ lowerStr m, isPyWS c = true := by
  intro c hc
  simp only [lowerStr, List.mem_map] at hc
  obtain ⟨d, hd, rfl⟩ := hc
  rw [asciiLower_ws d (h d hd)]
  exact h d hd

/-- A pattern starting with a non-whitespace character never occurs inside a
whitespace-only string (helper, cons form). -/
theorem containsSub_ws_aux (ks : List Char) (c0 : Char) (hc0 : isPyWS c0 = false) :
    ∀ m : List Char, (∀ c ∈ m, isPyWS c = true) →
      containsSub m (c0 :: ks) = false := by
  intro m
  induction m with
  | nil => intro _; rfl
  | cons c cs ih =>
    intro hm
    have hcws : isPyWS c = true := hm c (List.mem_cons_self c cs)
    have hne : (c0 == c) = false := by
      cases hbe : c0 == c
      · rfl
      · exfalso
        have hcc : c0 = c := eq_of_beq hbe
        rw [hcc, hcws] at hc0
        exact absurd hc0 (by simp)
    show (isPrefixOfB (c0 :: ks) (c :: cs) ||
      anySuffix (isPrefixOfB (c0 :: ks)) cs) = false
    have hpre : isPrefixOfB (c0 :: ks) (c :: cs) = false := by
      simp [isPrefixOfB, hne]
    rw [hpre, Bool.false_or]
    exact ih (fun d hd => hm d (List.mem_cons_of_mem c hd))

/-- A pattern whose head is non-whitespace never occurs inside a
whitespace-only string. -/
theorem containsSub_ws (m kw : List Char) (c0 : Char)
    (hm : ∀ c ∈ m, isPyWS c = true) (hkw : kw.head? = some c0)
    (hc0 : isPyWS c0 = false) : containsSub m kw = false := by
  cases kw with
  | nil => simp at hkw
  | cons k ks =>
    have hk : k = c0 := by simpa using hkw
    subst hk
    exact containsSub_ws_aux ks k hc0 m hm

/-- C7 (amended): every message with zero signals in all six detection
categories yields score 0, confidence 0.0, no scam verdict and an empty
risk-factor list (and the total model never raises); the category is
"Generic Fraud" for every empty or whitespace-only message, but for other
zero-signal messages it follows the cascade over the message text (see the
counterexample "account"). -/
theorem c7_zero_signal_amended (m : List Char) (h : noSignalsB m = true) :
    (detect m).risk_score = 0 ∧ (detect m).confidence = 0 ∧
    (detect m).is_scam = false ∧ (detect m).risk_factors = [] ∧
    ((∀ c ∈ m, isPyWS c = true) → (detect m).scam_type = "Generic Fraud".data) := by
  simp only [noSignalsB, Bool.and_eq_true, Bool.not_eq_true', List.all_eq_true] at h
  obtain ⟨⟨⟨⟨⟨hkw, hu⟩, hs⟩, hl⟩, hp⟩, hm⟩ := h
  rw [detect_no_signals m hkw hu hs hl hp hm]
  refine ⟨rfl, rfl, rfl, rfl, ?_⟩
  intro hws
  have hws2 := lowerStr_ws m hws
  have hn : ∀ (kw : List Char) (c0 : Char), kw.head? = some c0 →
      isPyWS c0 = false → containsSub (lowerStr m) kw = false :=
    fun kw c0 hh hc0 => containsSub_ws _ kw c0 hws2 hh hc0
  simp [classify_scam_type,
    hn "bank".data 'b' rfl (by decide), hn "account".data 'a' rfl (by decide),
    hn "upi".data 'u' rfl (by decide), hn "otp".data 'o' rfl (by decide),
    hn "pin".data 'p' rfl (by decide), hn "prize".data 'p' rfl (by decide),
    hn "winner".data 'w' rfl (by decide), hn "lottery".data 'l' rfl (by decide),
    hn "kyc".data 'k' rfl (by decide), hn "verify".data 'v' rfl (by decide)]

/-- C7 counterexample: "account" carries zero detection signals (in
particular, only "account blocked", not "account", is a scored keyword),
so it scores 0 with no risk factors — yet the category cascade returns
"Bank Account Fraud", not "Generic Fraud" as the claim demands for every
zero-signal message. -/
theorem c7_zero_signal_counterexample :
    noSignalsB "account".data = true ∧
    (detect "account".data).risk_score = 0 ∧
    (detect "account".data).confidence = 0 ∧
    (detect "account".data).is_scam = false ∧
    (detect "account".data).risk_factors = [] ∧
    (detect "account".data).scam_type = "Bank Account Fraud".data ∧
    "Bank Account Fraud".data ≠ "Generic Fraud".data := by
  with_unfolding_all decide

/-- Witness for C7 (amended) on the whitespace-only message `" "`. -/
theorem c7_zero_signal_witness :
    noSignalsB " ".data = true ∧
    (detect " ".data).risk_score = 0 ∧ (detect " ".data).confidence = 0 ∧
    (detect " ".data).is_scam = false ∧ (detect " ".data).risk_factors = [] ∧
    (detect " ".data).scam_type = "Generic Fraud".data := by
  have h := c7_zero_signal_amended " ".data (by decide)
  exact ⟨by decide, h.1, h.2.1, h.2.2.1, h.2.2.2.1, h.2.2.2.2 (by decide)⟩

/-! ## Claim C10 -/

theorem isWordC_of_isDigitC {c : Char} (h : isDigitC c = true) :
    isWordC c = true := by
  simp [isWordC, h]

theorem not_isDigitC_of_not_isWordC {c : Char} (h : isWordC c = false) :
    isDigitC c = false := by
  cases hd : isDigitC c
  · rfl
  · rw [isWordC_of_isDigitC hd] at h; exact absurd h (by simp)

/-- End of subject: report the pending run when it is boundary-valid. -/
theorem bankScanGo_nil (acc : List Char) (so : Bool) :
    bankScanGo [] acc so =
      if so && decide (9 ≤ acc.length) && decide (acc.length ≤ 18)
      then [acc.reverse] else [] := rfl

/-- A digit extends the pending run. -/
theorem bankScanGo_cons_digit (c : Char) (cs acc : List Char) (so : Bool)
    (hd : isDigitC c = true) :
    bankScanGo (c :: cs) acc so = bankScanGo cs (c :: acc) so := by
  simp [bankScanGo, hd]

/-- A non-digit closes the pending run, reporting it when boundary-valid. -/
theorem bankScanGo_cons_nondigit (c : Char) (cs acc : List Char) (so : Bool)
    (hcd : isDigitC c = false) :
    bankScanGo (c :: cs) acc so =
      if so && decide (9 ≤ acc.length) && decide (acc.length ≤ 18) && !isWordC c
      then acc.reverse :: bankScanGo cs [] (!isWordC c)
      else bankScanGo cs [] (!isWordC c) := by
  simp [bankScanGo, hcd]

/-- Scanning a block of digits just accumulates them. -/
theorem bankScanGo_digits (ds : List Char) (hds : ∀ c ∈ ds, isDigitC c = true) :
    ∀ (rest acc : List Char) (so : Bool),
      bankScanGo (ds ++ rest) acc so = bankScanGo rest (ds.reverse ++ acc) so := by
  induction ds with
  | nil => intro rest acc so; simp
  | cons d ds ih =>
    intro rest acc so
    have hd : isDigitC d = true := hds d (List.mem_cons_self d ds)
    have htl : ∀ c ∈ ds, isDigitC c = true :=
      fun c hc => hds c (List.mem_cons_of_mem d hc)
    rw [List.cons_append, bankScanGo_cons_digit d (ds ++ rest) acc so hd,
      ih htl rest (d :: acc) so]
    simp

/-- Whatever precedes a non-word character only prepends matches: the scan
state resets at that character, so the scan of the remainder survives as a
suffix of the output. -/
theorem bankScanGo_append_reset (c : Char) (hc : isWordC c = false)
    (rest : List Char) :
    ∀ (xs acc : List Char) (so : Bool),
      ∃ l, bankScanGo (xs ++ c :: rest) acc so = l ++ bankScanGo rest [] true := by
  intro xs
  induction xs with
  | nil =>
    intro acc so
    have hcd : isDigitC c = false := not_isDigitC_of_not_isWordC hc
    rw [List.nil_append, bankScanGo_cons_nondigit c rest acc so hcd, hc]
    split
    · exact ⟨[acc.reverse], rfl⟩
    · exact ⟨[], rfl⟩
  | cons d ds ih =>
    intro acc so
    rw [List.cons_append]
    by_cases hd : isDigitC d = true
    · rw [bankScanGo_cons_digit d (ds ++ c :: rest) acc so hd]
      exact ih (d :: acc) so
    · have hd2 : isDigitC d = false := by simpa using hd
      rw [bankScanGo_cons_nondigit d (ds ++ c :: rest) acc so hd2]
      obtain ⟨l, hl⟩ := ih [] (!isWordC d)
      rw [hl]
      split
      · exact ⟨acc.reverse :: l, by simp⟩
      · exact ⟨l, rfl⟩

/-- A leading digit run of valid length with a valid right boundary is
always reported by the scan. -/
theorem bankScanGo_run_mem (run post : List Char)
    (hrun : ∀ c ∈ run, isDigitC c = true) (h9 : 9 ≤ run.length)
    (h18 : run.length ≤ 18)
    (hpost : post = [] ∨ ∃ c post2, post = c :: post2 ∧ isWordC c = false) :
    run ∈ bankScanGo (run ++ post) [] true := by
  rw [bankScanGo_digits run hrun post [] true]
  rcases hpost with rfl | ⟨c, post2, rfl, hc⟩
  · simp [bankScanGo_nil, h9, h18]
  · have hcd : isDigitC c = false := not_isDigitC_of_not_isWordC hc
    rw [bankScanGo_cons_nondigit c post2 (run.reverse ++ []) true hcd, hc]
    simp [h9, h18]

/-- C10: every standalone digit token of 9 to 18 digits — a maximal digit
run flanked by non-word characters or the ends of the message — is recorded
in `bankAccounts` by `extract`, whatever the extractor state; in particular
every bare 10-digit mobile-shaped number is recorded there, independently of
what the phone scan records. -/
theorem c10_bank_token (pre run post : List Char) (st : IntelState)
    (hrun : ∀ c ∈ run, isDigitC c = true)
    (h9 : 9 ≤ run.length) (h18 : run.length ≤ 18)
    (hpre : pre = [] ∨ ∃ c pre2, pre = pre2 ++ [c] ∧ isWordC c = false)
    (hpost : post = [] ∨ ∃ c post2, post = c :: post2 ∧ isWordC c = false) :
    run ∈ (extract (pre ++ (run ++ post)) st).bankAccounts := by
  have hscan : run ∈ bankRunScan (pre ++ (run ++ post)) := by
    rcases hpre with rfl | ⟨c, pre2, rfl, hc⟩
    · simpa [bankRunScan] using bankScanGo_run_mem run post hrun h9 h18 hpost
    · unfold bankRunScan
      have hsplit : (pre2 ++ [c]) ++ (run ++ post) = pre2 ++ c :: (run ++ post) := by
        simp
      rw [hsplit]
      obtain ⟨l, hl⟩ := bankScanGo_append_reset c hc (run ++ post) pre2 [] true
      rw [hl]
      exact List.mem_append_right _ (bankScanGo_run_mem run post hrun h9 h18 hpost)
  simp only [extract, List.mem_dedup, List.mem_append]
  exact Or.inr (Or.inl hscan)

/-- Witness for C10: the bare mobile number of the scenario message lands in
`bankAccounts`. -/
theorem c10_bank_token_witness :
    (∀ c ∈ "9876543210".data, isDigitC c = true) ∧
    9 ≤ "9876543210".data.length ∧ "9876543210".data.length ≤ 18 ∧
    "9876543210".data ∈ (extract scamMsg initIntel).bankAccounts := by
  refine ⟨by decide, by decide, by decide, ?_⟩
  have h := c10_bank_token
    "Your account will be blocked! Verify immediately by sending OTP to ".data
    "9876543210".data [] initIntel (by decide) (by decide) (by decide)
    (Or.inr ⟨' ',
      "Your account will be blocked! Verify immediately by sending OTP to".data,
      by decide, by decide⟩)
    (Or.inl rfl)
  have heq : scamMsg =
      "Your account will be blocked! Verify immediately by sending OTP to ".data ++
      ("9876543210".data ++ []) := by decide
  rw [heq]
  exact h

/-! ## Claim C9 -/

/-- Looking up after a store finds the stored session for its id and is
unchanged elsewhere. -/
theorem lookup_storeSession (l : List (List Char × Session)) (sid : List Char)
    (s : Session) (sid2 : List Char) :
    lookupSession (storeSession l sid s) sid2 =
      if sid = sid2 then some s else lookupSession l sid2 := by
  induction l with
  | nil =>
    simp [storeSession, lookupSession, beq_iff_eq]
  | cons kv rest ih =>
    obtain ⟨k, v⟩ := kv
    simp only [storeSession]
    by_cases hk : k = sid
    · subst hk
      by_cases h2 : k = sid2
      · subst h2; simp [lookupSession]
      · simp [lookupSession, beq_iff_eq, h2]
    · rw [if_neg (by simpa [beq_iff_eq] using hk)]
      by_cases h2 : k = sid2
      · subst h2
        have hne : ¬ sid = k := fun hh => hk hh.symm
        simp [lookupSession, beq_iff_eq, hne]
      · simp [lookupSession, beq_iff_eq, h2, ih]

theorem storeSession_pres (l : List (List Char × Session)) (sid : List Char)
    (s : Session) (h : sessionsPersonaNone l) (hs : s.agent_persona = none) :
    sessionsPersonaNone (storeSession l sid s) := by
  intro sid2 s2 hlk
  rw [lookup_storeSession] at hlk
  split at hlk
  · cases hlk; exact hs
  · exact h sid2 s2 hlk

theorem get_or_create_pres (l : List (List Char × Session)) (sid now : List Char)
    (h : sessionsPersonaNone l) :
    (get_or_create_session l sid now).1.agent_persona = none ∧
    sessionsPersonaNone (get_or_create_session l sid now).2 := by
  unfold get_or_create_session
  cases hlk : lookupSession l sid with
  | some s => exact ⟨h sid s hlk, h⟩
  | none => exact ⟨rfl, storeSession_pres l sid _ h rfl⟩

theorem add_message_persona (s : Session) (a b c : List Char) :
    (add_message s a b c).agent_persona = s.agent_persona := rfl

theorem updateDetection_persona (s : Session) (t : List Char) :
    (updateDetection s t).agent_persona = s.agent_persona := by
  unfold updateDetection
  split
  · dsimp only
    split <;> rfl
  · rfl

theorem send_final_callback_persona (s : Session) (minM : Nat) (post : Option Nat)
    (s2 : Session) (h : (send_final_callback (some s) minM post).1 = some s2) :
    s2.agent_persona = s.agent_persona := by
  unfold send_final_callback at h
  by_cases h1 : s.callback_sent = true
  · simp [h1] at h
    rw [← h]
  · by_cases h2 : s.message_count < minM
    · simp [h1, h2] at h
      rw [← h]
    · cases post with
      | some code =>
        simp [h1, h2] at h
        rw [← h]
      | none =>
        simp [h1, h2] at h
        rw [← h]

theorem maybeCallback_pres (l : List (List Char × Session)) (sid : List Char)
    (post : Option Nat) (h : sessionsPersonaNone l) :
    sessionsPersonaNone (maybeCallback l sid post) := by
  unfold maybeCallback
  split
  · cases hlk : lookupSession l sid with
    | none => simpa [send_final_callback] using h
    | some s =>
      rcases hsf : send_final_callback (some s) 1 post with ⟨os, b⟩
      cases os with
      | none => exact h
      | some s2 =>
        show sessionsPersonaNone (storeSession l sid s2)
        apply storeSession_pres l sid s2 h
        rw [send_final_callback_persona s 1 post s2 (by rw [hsf])]
        exact h sid s hlk
  · exact h

/-- One request never writes any session's `agent_persona` field. -/
theorem processMessage_pres (st : AppState) (inp : Inbound) (o : Oracle)
    (h : sessionsPersonaNone st.sessions) :
    sessionsPersonaNone (processMessage st inp o).1.sessions := by
  obtain ⟨h1, h2⟩ := get_or_create_pres st.sessions inp.sessionId o.now h
  simp only [processMessage]
  apply maybeCallback_pres
  apply storeSession_pres _ _ _ h2
  rw [add_message_persona]
  show ({ updateDetection (add_message _ inp.sender inp.text inp.timestamp) inp.text with
      intelligence := _ } : Session).agent_persona = none
  rw [show ∀ x : Session, ∀ i, ({ x with intelligence := i } : Session).agent_persona
      = x.agent_persona from fun _ _ => rfl]
  rw [updateDetection_persona, add_message_persona]
  exact h1

/-- C9: persona state is process-global, not per-session.  Starting from
process start, after any sequence of requests every stored session still has
`agent_persona = None` (no operation ever writes it); and once the shared
agent holds a persona, every further request — for any session id and any
scam category — leaves it unchanged and uses exactly that persona whenever
it generates an engagement reply. -/
theorem c9_persona_global (p : List Char) (hp : p ≠ []) :
    (∀ steps : List (Inbound × Oracle), ∀ sid s,
        lookupSession (runApp initialAppState steps).sessions sid = some s →
        s.agent_persona = none) ∧
    (∀ (st : AppState) (inp : Inbound) (o : Oracle), st.agentPersona = some p →
        (processMessage st inp o).1.agentPersona = some p ∧
        ∀ q, (processMessage st inp o).2 = some q → q = p) := by
  constructor
  · have main : ∀ (steps : List (Inbound × Oracle)) (st : AppState),
        sessionsPersonaNone st.sessions →
        sessionsPersonaNone (runApp st steps).sessions := by
      intro steps
      induction steps with
      | nil => intro st h; exact h
      | cons pr rest ih =>
        intro st h
        obtain ⟨inp, o⟩ := pr
        exact ih _ (processMessage_pres st inp o h)
    intro steps
    exact main steps initialAppState
      (by intro sid s hlk; simp [initialAppState, lookupSession] at hlk)
  · intro st inp o hst
    have hsel := select_persona_assigned p hp
    simp only [processMessage, hst]
    constructor
    · split
      · rw [hsel]
      · rfl
    · intro q hq
      split at hq
      · rw [hsel] at hq
        simpa using hq.symm
      · simp at hq

/-- Witness for C9: with the shared persona already assigned, processing a
fresh prize-scam session leaves the global assignment unchanged. -/
theorem c9_persona_global_witness :
    (processMessage c9exSt c9exInp c9exOrc).1.agentPersona = some "elderly".data :=
  ((c9_persona_global "elderly".data (by decide)).2 c9exSt c9exInp c9exOrc rfl).1

end Buildathon
